import Mathlib

/-!
A shallow embedding of the Atlas Scientific Raspberry Pi I2C driver
(atlasrpi/i2c.py) and proofs about its protocol layer.

Frames and transmitted data are lists of naturals; every element produced
by the Python bytes type is below 256.  Exceptions raised by the Python
code are modelled by the Err type below, and the effectful operations are
modelled as pure functions that also return the list of I/O events they
perform, in order.
-/

namespace AtlasI2c

/-- Error taxonomy of the driver, one constructor per distinct Python
exception raised or propagated by the code:
ioError for IOError/OSError from the OS layer,
deviceError c for the generic Exception carrying the status code c raised
by read_bytes when the status byte is not 1,
protocolError for the StopIteration raised by next() when the frame is
empty after stripping null bytes,
unsupportedOperation for the Exception raised by query_bytes on a sleep
command, and decodeError for the UnicodeDecodeError raised by
bytes.decode when the payload is not valid UTF-8. -/
inductive Err where
  | ioError : Err
  | deviceError : Nat → Err
  | protocolError : Err
  | unsupportedOperation : Err
  | decodeError : Err
  deriving DecidableEq, Repr

/-- The timeout needed to query readings and calibrations, in seconds
(class attribute long_timeout = 1.5 of the source). -/
def long_timeout : ℚ := 3 / 2

/-- Timeout for regular commands, in seconds
(class attribute short_timeout = .5 of the source). -/
def short_timeout : ℚ := 1 / 2

/-- Python x & ~0x80 on a nonnegative integer: clear bit 7, leaving every
other bit unchanged. -/
def clearBit7 (x : Nat) : Nat :=
  if x.testBit 7 then x - 128 else x

/-- AtlasI2c.read_bytes applied to the raw bytes res returned by the read
stream: drop the null bytes, take the first remaining byte as the status
code; status 1 yields the remaining bytes with bit 7 cleared, any other
status raises the device error carrying that code, and an empty stripped
frame raises StopIteration (protocolError). -/
def read_bytes (res : List Nat) : Except Err (List Nat) :=
  match res.filter (fun x => x != 0) with
  | [] => .error .protocolError
  | code :: rest =>
      if code = 1 then .ok (rest.map clearBit7)
      else .error (.deviceError code)

/-- Python str.upper on the command string (the commands of this protocol
are ASCII, where Char.toUpper agrees with str.upper). -/
def upperStr (s : List Char) : List Char := s.map Char.toUpper

/-- UTF-8 encoding of a single character, as Python str.encode produces
for each code point. -/
def utf8EncodeChar (c : Char) : List Nat :=
  let v := c.toNat
  if v < 0x80 then [v]
  else if v < 0x800 then
    [0xC0 ||| (v >>> 6), 0x80 ||| (v &&& 0x3F)]
  else if v < 0x10000 then
    [0xE0 ||| (v >>> 12), 0x80 ||| ((v >>> 6) &&& 0x3F), 0x80 ||| (v &&& 0x3F)]
  else
    [0xF0 ||| (v >>> 18), 0x80 ||| ((v >>> 12) &&& 0x3F),
     0x80 ||| ((v >>> 6) &&& 0x3F), 0x80 ||| (v &&& 0x3F)]

/-- UTF-8 encoding of a string (Python str.encode applied to UTF-8). -/
def utf8Encode (s : List Char) : List Nat := s.flatMap utf8EncodeChar

/-- One I/O action performed by the driver, in the order executed:
a write of raw bytes to the write stream, a blocking sleep for a duration
in seconds, or a read request of at most n bytes from the read stream. -/
inductive Event where
  | writeBytes : List Nat → Event
  | sleep : ℚ → Event
  | readReq : Nat → Event
  deriving DecidableEq, Repr

/-- The bytes transmitted by AtlasI2c.write for a command string: the
UTF-8 encoding of the command with the null character appended by the
format string. -/
def writePayload (s : List Char) : List Nat :=
  utf8Encode (s ++ [Char.ofNat 0])

/-- AtlasI2c.write: a single raw write of the null-terminated command. -/
def write (s : List Char) : Event :=
  Event.writeBytes (writePayload s)

/-- AtlasI2c.query_bytes on a command string, with frame the raw bytes the
read stream would deliver: first write the command, then branch on the
upper-cased command to pick the delay (long for a leading R or CAL, an
exception for a leading SLEEP, short otherwise), then read.  The returned
pair is the list of I/O events actually performed and the result. -/
def query_bytes (s : List Char) (frame : List Nat) :
    List Event × Except Err (List Nat) :=
  let u := upperStr s
  if "R".toList.isPrefixOf u || "CAL".toList.isPrefixOf u then
    ([write s, Event.sleep long_timeout, Event.readReq 31], read_bytes frame)
  else if "SLEEP".toList.isPrefixOf u then
    ([write s], .error .unsupportedOperation)
  else
    ([write s, Event.sleep short_timeout, Event.readReq 31], read_bytes frame)

/-- The environment the channel talks to: whether the I2C_SLAVE ioctl on
the read stream and on the write stream accepts a given address, and what
a raw read at a given address yields (none models an IOError from the OS,
some res models the raw bytes delivered). -/
structure Bus where
  bindRead : Nat → Bool
  bindWrite : Nat → Bool
  readResult : Nat → Option (List Nat)

/-- AtlasI2c.set_i2c_address: ioctl the read stream, then the write
stream, then record the address.  The pair is the outcome and the value
of current_addr afterwards (st is current_addr before the call); a failed
ioctl raises OSError (ioError) and leaves current_addr untouched. -/
def set_i2c_address (bus : Bus) (st : Nat) (addr : Nat) :
    Except Err Unit × Nat :=
  if bus.bindRead addr then
    if bus.bindWrite addr then (.ok (), addr)
    else (.error .ioError, st)
  else (.error .ioError, st)

/-- A bare read_bytes at an address: the OS read may fail with IOError,
otherwise the delivered frame is parsed by read_bytes. -/
def readAt (bus : Bus) (addr : Nat) : Except Err (List Nat) :=
  match bus.readResult addr with
  | none => .error .ioError
  | some res => read_bytes res

/-- Whether a bare read at an address succeeds. -/
def respOk (bus : Bus) (addr : Nat) : Bool :=
  match readAt bus addr with
  | .ok _ => true
  | .error _ => false

/-- The for-loop of AtlasI2c.list_i2c_devices over the remaining
candidate addresses: each iteration tries set_i2c_address then a bare
read_bytes, appending the address on success; an IOError anywhere in the
try block is swallowed and the loop continues; any other exception
propagates out of the loop (error result, paired with the value of
current_addr at that moment).  Arguments: the remaining addresses, the
value of current_addr, and the accumulated device list. -/
def probeLoop (bus : Bus) : List Nat → Nat → List Nat →
    Except (Err × Nat) (List Nat × Nat)
  | [], st, acc => .ok (acc, st)
  | i :: rest, st, acc =>
      match set_i2c_address bus st i with
      | (.error _, st') => probeLoop bus rest st' acc
      | (.ok _, st') =>
          match readAt bus i with
          | .ok _ => probeLoop bus rest st' (acc ++ [i])
          | .error .ioError => probeLoop bus rest st' acc
          | .error e => .error (e, st')

/-- AtlasI2c.list_i2c_devices: save current_addr, sweep addresses 0..127
with probeLoop, then restore the saved address with set_i2c_address.
The restore statement runs only when the loop finishes normally (there is
no try/finally around the sweep in the source); the result carries the
device list and the final value of current_addr, or the propagated
exception and the final value of current_addr. -/
def list_i2c_devices (bus : Bus) (st : Nat) :
    Except (Err × Nat) (List Nat × Nat) :=
  match probeLoop bus (List.range 128) st [] with
  | .error e => .error e
  | .ok (devices, st') =>
      match set_i2c_address bus st' st with
      | (.ok _, st'') => .ok (devices, st'')
      | (.error err, st'') => .error (err, st'')

mutual

/-- UTF-8 decoding as Python bytes.decode performs it: none models a
UnicodeDecodeError, some cs the decoded code points.  Multi-byte
sequences check the lead-byte range, the continuation bytes, and the
overlong and surrogate exclusions (split across the utf8Tail functions
below, one per sequence length). -/
def utf8Decode : List Nat → Option (List Nat)
  | [] => some []
  | b :: rest =>
      if b < 0x80 then
        (utf8Decode rest).map (fun cs => b :: cs)
      else if b < 0xC2 then none
      else if b < 0xE0 then utf8Tail2 b rest
      else if b < 0xF0 then utf8Tail3 b rest
      else if b < 0xF5 then utf8Tail4 b rest
      else none

/-- Continuation of a two-byte UTF-8 sequence with lead byte b. -/
def utf8Tail2 : Nat → List Nat → Option (List Nat)
  | b, b1 :: rest =>
      if 0x80 ≤ b1 ∧ b1 < 0xC0 then
        (utf8Decode rest).map
          (fun cs => (((b - 0xC0) <<< 6) ||| (b1 - 0x80)) :: cs)
      else none
  | _, [] => none

/-- Continuation of a three-byte UTF-8 sequence with lead byte b. -/
def utf8Tail3 : Nat → List Nat → Option (List Nat)
  | b, b1 :: b2 :: rest =>
      if (0x80 ≤ b1 ∧ b1 < 0xC0) ∧ (0x80 ≤ b2 ∧ b2 < 0xC0)
          ∧ (b = 0xE0 → 0xA0 ≤ b1) ∧ (b = 0xED → b1 < 0xA0) then
        (utf8Decode rest).map
          (fun cs => (((b - 0xE0) <<< 12) ||| ((b1 - 0x80) <<< 6)
            ||| (b2 - 0x80)) :: cs)
      else none
  | _, _ => none

/-- Continuation of a four-byte UTF-8 sequence with lead byte b. -/
def utf8Tail4 : Nat → List Nat → Option (List Nat)
  | b, b1 :: b2 :: b3 :: rest =>
      if (0x80 ≤ b1 ∧ b1 < 0xC0) ∧ (0x80 ≤ b2 ∧ b2 < 0xC0)
          ∧ (0x80 ≤ b3 ∧ b3 < 0xC0)
          ∧ (b = 0xF0 → 0x90 ≤ b1) ∧ (b = 0xF4 → b1 < 0x90) then
        (utf8Decode rest).map
          (fun cs => (((b - 0xF0) <<< 18) ||| ((b1 - 0x80) <<< 12)
            ||| ((b2 - 0x80) <<< 6) ||| (b3 - 0x80)) :: cs)
      else none
  | _, _ => none

end

/-- Python bytes.decode applied to UTF-8: the decoded code points on
success, the UnicodeDecodeError otherwise. -/
def decodePayload (bs : List Nat) : Except Err (List Nat) :=
  match utf8Decode bs with
  | some cs => .ok cs
  | none => .error .decodeError

/-- AtlasI2c.read: read_bytes followed by a UTF-8 decode of the
payload. -/
def read (frame : List Nat) : Except Err (List Nat) :=
  match read_bytes frame with
  | .ok bs => decodePayload bs
  | .error e => .error e

/-- AtlasI2c.query: query_bytes followed by a UTF-8 decode of the payload
(the event trace is that of query_bytes; the decode performs no I/O). -/
def query (s : List Char) (frame : List Nat) :
    List Event × Except Err (List Nat) :=
  match query_bytes s frame with
  | (es, .ok bs) => (es, decodePayload bs)
  | (es, .error e) => (es, .error e)

/-- A mock bus on which exactly addresses 99 and 100 hold a pending
response (a status-1 frame); every other address fails the bare read with
an IOError, and address selection succeeds everywhere. -/
def mockBus : Bus :=
  ⟨fun _ => true, fun _ => true,
   fun a => if a = 99 || a = 100 then some [1, 0xC1] else none⟩

/-- A mock bus on which the bare read at address 0 delivers a status-2
frame, so read_bytes raises the generic device-error exception there,
which is not an IOError; address selection succeeds everywhere. -/
def errBus : Bus :=
  ⟨fun _ => true, fun _ => true,
   fun a => if a = 0 then some [2] else none⟩

/-- Decidable equality of driver results, for concrete evaluation. -/
instance {e a : Type} [DecidableEq e] [DecidableEq a] :
    DecidableEq (Except e a) := fun x y =>
  match x, y with
  | .ok v, .ok w =>
      if h : v = w then .isTrue (by rw [h])
      else .isFalse (fun hc => h (Except.ok.inj hc))
  | .error v, .error w =>
      if h : v = w then .isTrue (by rw [h])
      else .isFalse (fun hc => h (Except.error.inj hc))
  | .ok _, .error _ => .isFalse (fun hc => Except.noConfusion hc)
  | .error _, .ok _ => .isFalse (fun hc => Except.noConfusion hc)

/-- A mock bus on which the ioctl bind of the read stream is rejected at
every address while the write-stream bind would succeed. -/
def failBus : Bus :=
  ⟨fun _ => false, fun _ => true, fun _ => none⟩

/-- The value of current_addr once list_i2c_devices has finished, whether
it returned or propagated an exception. -/
def finalAddr : Except (Err × Nat) (List Nat × Nat) → Nat
  | .ok (_, a) => a
  | .error (_, a) => a

/-- The durations of the sleep events of a trace, in order. -/
def sleepEvents (es : List Event) : List ℚ :=
  es.filterMap (fun e => match e with | .sleep q => some q | _ => none)

/-- Whether a trace contains a write to the write stream. -/
def hasWrite (es : List Event) : Bool :=
  es.any (fun e => match e with | .writeBytes _ => true | _ => false)

set_option maxRecDepth 4000 in
/-- Clearing bit 7 of a byte yields a value whose bit 7 is clear and
which is below 128. -/
theorem clearBit7_byte :
    ∀ x : Nat, x < 256 → clearBit7 x &&& 128 = 0 ∧ clearBit7 x < 128 := by
  decide

/-- The bytes put on the wire by write are the UTF-8 encoding of the
command followed by a single null byte. -/
theorem writePayload_eq (s : List Char) :
    writePayload s = utf8Encode s ++ [0] := by
  have h0 : utf8EncodeChar (Char.ofNat 0) = [0] := rfl
  simp [writePayload, utf8Encode, h0]

/-- A string whose upper-cased form begins with SLEEP begins with S, so
it matches neither the leading-R nor the leading-CAL test. -/
theorem sleep_not_R_CAL (u : List Char)
    (h : "SLEEP".toList.isPrefixOf u = true) :
    ("R".toList.isPrefixOf u || "CAL".toList.isPrefixOf u) = false := by
  have hs : "SLEEP".toList = ['S', 'L', 'E', 'E', 'P'] := by decide
  have hR : "R".toList = ['R'] := by decide
  have hC : "CAL".toList = ['C', 'A', 'L'] := by decide
  rw [hs] at h
  rw [hR, hC]
  rw [List.isPrefixOf_iff_prefix] at h
  obtain ⟨t, rfl⟩ := h
  simp [List.isPrefixOf]

/-- A bare read at an address counts as responding exactly when readAt
succeeds. -/
theorem respOk_true_iff (bus : Bus) (i : Nat) :
    respOk bus i = true ↔ ∃ v, readAt bus i = .ok v := by
  unfold respOk
  cases h : readAt bus i <;> simp

/-- A successful read_bytes comes from a frame whose stripped form starts
with the status byte 1, and the payload is the rest with bit 7
cleared. -/
theorem read_bytes_payload_shape (frame payload : List Nat)
    (h : read_bytes frame = .ok payload) :
    ∃ rest, frame.filter (fun x => x != 0) = 1 :: rest ∧
      payload = rest.map clearBit7 := by
  unfold read_bytes at h
  cases hf : frame.filter (fun x => x != 0) with
  | nil => rw [hf] at h; exact absurd h (by simp)
  | cons c rest =>
      rw [hf] at h
      by_cases hc : c = 1
      · subst hc
        refine ⟨rest, rfl, ?_⟩
        simp at h
        exact h.symm
      · simp [hc] at h

/-- read_bytes never signals a decode error. -/
theorem read_bytes_no_decodeError (frame : List Nat) :
    read_bytes frame ≠ .error .decodeError := by
  unfold read_bytes
  cases hf : frame.filter (fun x => x != 0) with
  | nil => simp
  | cons c rest => by_cases hc : c = 1 <;> simp [hc]

/-- UTF-8 decoding succeeds on any list of ASCII bytes, returning the
bytes themselves as code points. -/
theorem utf8Decode_ascii (bs : List Nat) (h : ∀ b ∈ bs, b < 128) :
    utf8Decode bs = some bs := by
  induction bs with
  | nil => rfl
  | cons b rest ih =>
      have hb : b < 0x80 := h b (by simp)
      have ih' := ih (fun x hx => h x (by simp [hx]))
      rw [utf8Decode, if_pos hb, ih']
      rfl

/-- The payload of a successful read_bytes on a frame of bytes decodes
without error. -/
theorem decodePayload_read_bytes (frame payload : List Nat)
    (hbytes : ∀ b ∈ frame, b < 256)
    (h : read_bytes frame = .ok payload) :
    decodePayload payload = .ok payload := by
  obtain ⟨rest, hf, hp⟩ := read_bytes_payload_shape frame payload h
  have hlt : ∀ b ∈ payload, b < 128 := by
    intro b hb
    rw [hp] at hb
    obtain ⟨x, hx, rfl⟩ := List.mem_map.mp hb
    have hxf : x ∈ frame :=
      List.mem_of_mem_filter (hf ▸ List.mem_cons_of_mem 1 hx)
    exact (clearBit7_byte x (hbytes x hxf)).2
  simp [decodePayload, utf8Decode_ascii payload hlt]

/-- On a bus whose address binds all succeed and whose bare reads either
succeed or fail with an IOError, the sweep loop returns the accumulated
list followed by the responding addresses of the remaining candidates, in
order, for some final value of current_addr. -/
theorem probeLoop_ok (bus : Bus)
    (hbind : ∀ a, bus.bindRead a = true ∧ bus.bindWrite a = true) :
    ∀ (l : List Nat) (st : Nat) (acc : List Nat),
      (∀ i ∈ l, respOk bus i = true ∨ readAt bus i = .error .ioError) →
      ∃ fin, probeLoop bus l st acc = .ok (acc ++ l.filter (respOk bus), fin)
  | [], st, acc, _ => ⟨st, by simp [probeLoop]⟩
  | i :: rest, st, acc, h => by
      have hset : set_i2c_address bus st i = (.ok (), i) := by
        simp [set_i2c_address, (hbind i).1, (hbind i).2]
      have hrest : ∀ j ∈ rest, respOk bus j = true ∨
          readAt bus j = .error .ioError :=
        fun j hj => h j (List.mem_cons_of_mem i hj)
      rcases h i (List.mem_cons_self i rest) with hresp | hio
      · obtain ⟨v, hv⟩ := (respOk_true_iff bus i).mp hresp
        obtain ⟨fin, hfin⟩ := probeLoop_ok bus hbind rest i (acc ++ [i]) hrest
        refine ⟨fin, ?_⟩
        rw [probeLoop, hset]
        simp only [hv]
        rw [hfin]
        simp [List.filter_cons, hresp]
      · have hresp' : respOk bus i = false := by simp [respOk, hio]
        obtain ⟨fin, hfin⟩ := probeLoop_ok bus hbind rest i acc hrest
        refine ⟨fin, ?_⟩
        rw [probeLoop, hset]
        simp only [hio]
        rw [hfin]
        simp [List.filter_cons, hresp']

/-- On a bus whose address binds all succeed and whose bare reads either
succeed or fail with an IOError, list_i2c_devices returns exactly the
responding addresses among 0..127 in ascending order and leaves
current_addr at its initial value. -/
theorem list_i2c_devices_ok (bus : Bus) (st : Nat)
    (hbind : ∀ a, bus.bindRead a = true ∧ bus.bindWrite a = true)
    (hio : ∀ i, i < 128 → respOk bus i = true ∨ readAt bus i = .error .ioError) :
    list_i2c_devices bus st = .ok ((List.range 128).filter (respOk bus), st) := by
  obtain ⟨fin, hfin⟩ := probeLoop_ok bus hbind (List.range 128) st []
    (fun i hi => hio i (List.mem_range.mp hi))
  have hset : set_i2c_address bus fin st = (.ok (), st) := by
    simp [set_i2c_address, (hbind st).1, (hbind st).2]
  rw [list_i2c_devices, hfin]
  simp only [hset]
  simp

/-- query decodes the payload of query_bytes and passes its errors
through unchanged. -/
theorem query_snd (s : List Char) (frame : List Nat) :
    (query s frame).2 = (match (query_bytes s frame).2 with
      | .ok bs => decodePayload bs
      | .error e => .error e) := by
  rw [query]
  rcases hq : query_bytes s frame with ⟨es, r⟩
  cases r <;> simp

/-- For a command that is not a sleep command, the result of query_bytes
is the parsed frame. -/
theorem query_bytes_snd (s : List Char) (frame : List Nat)
    (hs : "SLEEP".toList.isPrefixOf (upperStr s) = false) :
    (query_bytes s frame).2 = read_bytes frame := by
  simp only [query_bytes]
  split
  · rfl
  · split
    · next h => rw [hs] at h; exact Bool.noConfusion h
    · rfl

/-- For a sleep command, the result of query_bytes is the sleep
rejection. -/
theorem query_bytes_snd_sleep (s : List Char) (frame : List Nat)
    (h : "SLEEP".toList.isPrefixOf (upperStr s) = true) :
    (query_bytes s frame).2 = .error .unsupportedOperation := by
  have hrc := sleep_not_R_CAL (upperStr s) h
  simp only [query_bytes]
  split
  · next hsplit => rw [hrc] at hsplit; exact Bool.noConfusion hsplit
  · rfl

/-- C2: for every frame successfully decoded by read_bytes, every byte of
the returned payload has bit 7 cleared. -/
theorem read_bytes_msb_cleared (frame payload : List Nat)
    (hbytes : ∀ b ∈ frame, b < 256)
    (h : read_bytes frame = .ok payload) :
    ∀ b ∈ payload, b &&& 0x80 = 0 := by
  obtain ⟨rest, hf, hp⟩ := read_bytes_payload_shape frame payload h
  intro b hb
  rw [hp] at hb
  obtain ⟨x, hx, rfl⟩ := List.mem_map.mp hb
  have hxf : x ∈ frame :=
    List.mem_of_mem_filter (hf ▸ List.mem_cons_of_mem 1 hx)
  exact (clearBit7_byte x (hbytes x hxf)).1

/-- Witness for C2 at the concrete frame 00 01 BF C9, whose payload is
3F 49. -/
theorem read_bytes_msb_cleared_witness : (63 : Nat) &&& 0x80 = 0 :=
  read_bytes_msb_cleared [0, 1, 0xBF, 0xC9] [63, 73] (by decide) (by rfl)
    63 (by decide)

/-- C3: a frame whose first non-null byte is a status code other than 1
makes read_bytes, and hence query, fail with the device error carrying
that code, and no payload is returned. -/
theorem read_bytes_device_error (frame : List Nat) (code : Nat)
    (rest : List Nat)
    (hf : frame.filter (fun x => x != 0) = code :: rest)
    (hcode : code ≠ 1) :
    read_bytes frame = .error (.deviceError code) ∧
    ∀ s : List Char, "SLEEP".toList.isPrefixOf (upperStr s) = false →
      (query s frame).2 = .error (.deviceError code) := by
  have h1 : read_bytes frame = .error (.deviceError code) := by
    simp [read_bytes, hf, hcode]
  refine ⟨h1, fun s hs => ?_⟩
  rw [query_snd, query_bytes_snd s frame hs, h1]

/-- Witness for C3 at the concrete frame 00 02 41 and the command I. -/
theorem read_bytes_device_error_witness :
    (query "I".toList [0, 2, 65]).2 = .error (.deviceError 2) :=
  (read_bytes_device_error [0, 2, 65] 2 [65] (by decide) (by decide)).2
    "I".toList (by decide)

/-- C4: a frame that is empty after stripping null bytes makes read_bytes
fail with the protocol error, never a successful payload. -/
theorem read_bytes_empty_protocolError (frame : List Nat)
    (hf : frame.filter (fun x => x != 0) = []) :
    read_bytes frame = .error .protocolError ∧
    ∀ payload, read_bytes frame ≠ .ok payload := by
  have h1 : read_bytes frame = .error .protocolError := by
    simp [read_bytes, hf]
  exact ⟨h1, fun payload hp => by rw [h1] at hp; exact Except.noConfusion hp⟩

/-- Witness for C4 at the all-null frame 00 00 00. -/
theorem read_bytes_empty_protocolError_witness :
    read_bytes [0, 0, 0] = .error .protocolError :=
  (read_bytes_empty_protocolError [0, 0, 0] (by decide)).1

/-- C8: write transmits exactly the UTF-8 encoding of the command
followed by a single null byte, with no other transformation. -/
theorem write_appends_single_null (s : List Char) :
    write s = Event.writeBytes (utf8Encode s ++ [0]) := by
  rw [write, writePayload_eq]

/-- C9: set_i2c_address records the new address only when both stream
binds succeed; if either bind fails the call fails and current_addr keeps
its previous value. -/
theorem set_i2c_address_updates (bus : Bus) (st addr : Nat) :
    (bus.bindRead addr = true → bus.bindWrite addr = true →
      set_i2c_address bus st addr = (.ok (), addr)) ∧
    ((bus.bindRead addr = false ∨ bus.bindWrite addr = false) →
      set_i2c_address bus st addr = (.error .ioError, st)) := by
  constructor
  · intro h1 h2
    simp [set_i2c_address, h1, h2]
  · rintro (h | h)
    · simp [set_i2c_address, h]
    · cases hr : bus.bindRead addr <;> simp [set_i2c_address, hr, h]

/-- Witness for C9: a successful bind at address 42 and a rejected
read-stream bind at address 42. -/
theorem set_i2c_address_updates_witness :
    set_i2c_address mockBus 5 42 = (.ok (), 42) ∧
    set_i2c_address failBus 5 42 = (.error .ioError, 5) :=
  ⟨(set_i2c_address_updates mockBus 5 42).1 rfl rfl,
   (set_i2c_address_updates failBus 5 42).2 (Or.inl rfl)⟩

/-- C1 counterexample: on the concrete sleep command SLEEP the query does
fail with the sleep rejection, but its event trace contains a write of
the command bytes to the write stream, so the no-write part of the claim
is false on the code (the source writes the command before classifying
it). -/
theorem query_sleep_no_write_counterexample :
    "SLEEP".toList.isPrefixOf (upperStr "SLEEP".toList) = true ∧
    (query_bytes "SLEEP".toList []).2 = .error .unsupportedOperation ∧
    hasWrite (query_bytes "SLEEP".toList []).1 = true := by
  refine ⟨by decide, ?_, ?_⟩ <;> rfl

/-- C1 amended: a command whose upper-cased form begins with SLEEP makes
query_bytes fail with the sleep rejection before any delay or read, but
only after the null-terminated command bytes have been written to the
write stream. -/
theorem query_sleep_rejected (s : List Char) (frame : List Nat)
    (h : "SLEEP".toList.isPrefixOf (upperStr s) = true) :
    query_bytes s frame =
      ([Event.writeBytes (utf8Encode s ++ [0])],
        .error .unsupportedOperation) := by
  have hrc := sleep_not_R_CAL (upperStr s) h
  simp only [query_bytes]
  split
  · next hsplit => rw [hrc] at hsplit; exact Bool.noConfusion hsplit
  · rw [write, writePayload_eq]

/-- Witness for the amended C1 at the command SLEEP. -/
theorem query_sleep_rejected_witness :
    query_bytes "SLEEP".toList [] =
      ([Event.writeBytes (utf8Encode "SLEEP".toList ++ [0])],
        .error .unsupportedOperation) :=
  query_sleep_rejected "SLEEP".toList [] (by decide)

/-- C5: a command whose upper-cased form begins with R or CAL makes query
sleep exactly the long timeout before reading, any other non-sleep
command sleeps exactly the short timeout, and the two constants are the
fixed values 1.5 and 0.5 seconds. -/
theorem query_timeout_classification (s : List Char) (frame : List Nat) :
    (("R".toList.isPrefixOf (upperStr s)
        || "CAL".toList.isPrefixOf (upperStr s)) = true →
      sleepEvents (query_bytes s frame).1 = [long_timeout]) ∧
    (("R".toList.isPrefixOf (upperStr s)
        || "CAL".toList.isPrefixOf (upperStr s)) = false →
      "SLEEP".toList.isPrefixOf (upperStr s) = false →
      sleepEvents (query_bytes s frame).1 = [short_timeout]) ∧
    long_timeout = 3 / 2 ∧ short_timeout = 1 / 2 := by
  refine ⟨fun hr => ?_, fun hr hs => ?_, rfl, rfl⟩
  · simp only [query_bytes]
    rw [hr]
    simp [sleepEvents, write]
  · simp only [query_bytes]
    rw [hr, hs]
    simp [sleepEvents, write]

/-- Witness for C5 at the commands R, Cal,low,4 and I. -/
theorem query_timeout_classification_witness :
    sleepEvents (query_bytes "R".toList []).1 = [long_timeout] ∧
    sleepEvents (query_bytes "Cal,low,4".toList []).1 = [long_timeout] ∧
    sleepEvents (query_bytes "I".toList []).1 = [short_timeout] :=
  ⟨(query_timeout_classification "R".toList []).1 (by decide),
   (query_timeout_classification "Cal,low,4".toList []).1 (by decide),
   (query_timeout_classification "I".toList []).2.1 (by decide) (by decide)⟩

/-- C6: on a bus where address selection succeeds and every bare read
either succeeds or fails with an IOError, list_i2c_devices returns
exactly the responding addresses among the candidates 0..127 in ascending
order, and current_addr afterwards equals its value before the call. -/
theorem probe_addresses_sweep (bus : Bus) (st : Nat)
    (hbind : ∀ a, bus.bindRead a = true ∧ bus.bindWrite a = true)
    (hio : ∀ i, i < 128 →
      respOk bus i = true ∨ readAt bus i = .error .ioError) :
    list_i2c_devices bus st =
      .ok ((List.range 128).filter (respOk bus), st) :=
  list_i2c_devices_ok bus st hbind hio

/-- Witness for C6: on the mock bus where exactly addresses 99 and 100
respond, the sweep returns the ascending pair 99, 100 and current_addr
stays at its prior value 7. -/
theorem probe_addresses_sweep_witness :
    list_i2c_devices mockBus 7 = .ok ([99, 100], 7) := by
  have h := probe_addresses_sweep mockBus 7 (fun a => ⟨rfl, rfl⟩) (by decide)
  rw [h]
  rfl

/-- C7 counterexample: on the mock bus whose address 0 delivers a
status-2 frame, the bare read raises the device error, which is not an
IOError, so the sweep propagates it before the restore statement runs:
list_i2c_devices started at address 99 ends with current_addr 0, not
99. -/
theorem probe_addresses_restore_counterexample :
    list_i2c_devices errBus 99 = .error (.deviceError 2, 0) ∧
    finalAddr (list_i2c_devices errBus 99) = 0 ∧ (0 : Nat) ≠ 99 := by
  refine ⟨?_, ?_, by decide⟩ <;> rfl

/-- C7 amended: list_i2c_devices restores the originally selected
address when the sweep completes normally, that is, when address
selection succeeds everywhere and every per-address bare read either
succeeds or fails with an IOError; when an attempt fails with a non-I/O
error, the error propagates and current_addr is left at the probed
address rather than restored. -/
theorem probe_addresses_restore (bus : Bus) (st : Nat)
    (hbind : ∀ a, bus.bindRead a = true ∧ bus.bindWrite a = true)
    (hio : ∀ i, i < 128 →
      respOk bus i = true ∨ readAt bus i = .error .ioError) :
    finalAddr (list_i2c_devices bus st) = st := by
  rw [list_i2c_devices_ok bus st hbind hio]
  rfl

/-- Witness for the amended C7 on the mock bus, starting at address 7. -/
theorem probe_addresses_restore_witness :
    finalAddr (list_i2c_devices mockBus 7) = 7 :=
  probe_addresses_restore mockBus 7 (fun a => ⟨rfl, rfl⟩) (by decide)

/-- C10: because every payload byte of a successful read_bytes is ASCII,
the UTF-8 decode step of read and query can never fail: neither ever
yields the decode error. -/
theorem decode_branch_unreachable (s : List Char) (frame : List Nat)
    (hbytes : ∀ b ∈ frame, b < 256) :
    read frame ≠ .error .decodeError ∧
    (query s frame).2 ≠ .error .decodeError := by
  have hread : ∀ r, read_bytes frame = r →
      (match r with
        | .ok bs => decodePayload bs
        | .error e => Except.error e) ≠ Except.error Err.decodeError := by
    intro r hr
    match r with
    | .ok bs =>
        show decodePayload bs ≠ Except.error Err.decodeError
        rw [decodePayload_read_bytes frame bs hbytes hr]
        simp
    | .error e =>
        show Except.error e ≠ Except.error Err.decodeError
        have hnd := read_bytes_no_decodeError frame
        rw [hr] at hnd
        exact hnd
  constructor
  · rw [read]
    exact hread (read_bytes frame) rfl
  · rw [query_snd]
    by_cases hs : "SLEEP".toList.isPrefixOf (upperStr s) = true
    · rw [query_bytes_snd_sleep s frame hs]
      simp
    · rw [query_bytes_snd s frame (Bool.not_eq_true _ ▸ hs)]
      exact hread (read_bytes frame) rfl

/-- Witness for C10 at the command I and the concrete frame 00 01 BF. -/
theorem decode_branch_unreachable_witness :
    read [0, 1, 0xBF] ≠ .error .decodeError ∧
    (query "I".toList [0, 1, 0xBF]).2 ≠ .error .decodeError :=
  decode_branch_unreachable "I".toList [0, 1, 0xBF] (by decide)

end AtlasI2c
